import Mathlib

/-!
Shallow embedding of the per-tab navigation/metadata state machine of the
url-changed extension's background coordinator (src/background.js, canonical
permission-backed variant; the allowlist variant's metadata integrator is
embedded alongside for comparison).

Platform effects are made explicit: the live tab URL (tabs.get) and the
permission oracle (hasHostPerm / the allowlist) are passed in as parameters,
and the scheduling of a metadata probe (the debounced refreshPageIds call) is
returned as a Boolean alongside the new state.
-/

/-- Parsed URL: the protocol (with its trailing colon), host, pathname, search
and hash components — the fields of the platform URL object that
background.js reads. -/
structure URLRec where
  protocol : String
  host : String
  pathname : String
  search : String
  hash : String
deriving DecidableEq

/-- Split a character list at the first occurrence of a character; none when
the character is absent. -/
def splitFirst (c : Char) : List Char → Option (List Char × List Char)
  | [] => none
  | x :: xs =>
    if x = c then some ([], xs)
    else
      match splitFirst c xs with
      | none => none
      | some (a, b) => some (x :: a, b)

/-- Model of the WHATWG URL constructor on the absolute URLs this extension
handles: a scheme up to the first colon, then an optional //host part, then
the pathname, ?search and #hash; none models the constructor throwing. A
special-scheme URL with an empty path gets pathname "/", and a lone "?" or
"#" yields an empty search or hash, as in the platform. -/
def parseURL (s : String) : Option URLRec :=
  match splitFirst ':' s.toList with
  | none => none
  | some (sch, rest) =>
    if sch = [] then none
    else
      let protocol := String.mk (sch ++ [':'])
      match rest with
      | '/' :: '/' :: r2 =>
        let host := r2.takeWhile fun c => c != '/' && c != '?' && c != '#'
        let r3 := r2.dropWhile fun c => c != '/' && c != '?' && c != '#'
        let path := r3.takeWhile fun c => c != '?' && c != '#'
        let r4 := r3.dropWhile fun c => c != '?' && c != '#'
        let q := r4.takeWhile fun c => c != '#'
        let h := r4.dropWhile fun c => c != '#'
        some { protocol := protocol,
               host := String.mk host,
               pathname := if path = [] then "/" else String.mk path,
               search := if q = ['?'] then "" else String.mk q,
               hash := if h = ['#'] then "" else String.mk h }
      | r2 =>
        let path := r2.takeWhile fun c => c != '?' && c != '#'
        let r4 := r2.dropWhile fun c => c != '?' && c != '#'
        let q := r4.takeWhile fun c => c != '#'
        let h := r4.dropWhile fun c => c != '#'
        some { protocol := protocol,
               host := "",
               pathname := String.mk path,
               search := if q = ['?'] then "" else String.mk q,
               hash := if h = ['#'] then "" else String.mk h }

/-- CORE_PROTOCOLS from background.js. -/
def CORE_PROTOCOLS : List String := ["http:", "https:", "file:"]

/-- Membership of a parsed URL's protocol in CORE_PROTOCOLS. -/
def isCoreRec (u : URLRec) : Bool := CORE_PROTOCOLS.contains u.protocol

/-- isCoreProtocol from background.js: parse the URL and test its protocol
against CORE_PROTOCOLS; a parse failure yields false. -/
def isCoreProtocol (url : String) : Bool :=
  match parseURL url with
  | some u => isCoreRec u
  | none => false

/-- originOf from background.js: protocol//host. -/
def originOf (u : URLRec) : String := u.protocol ++ "//" ++ u.host

/-- Result of diffComponents. -/
structure Diffs where
  origin : Bool
  path : Bool
  query : Bool
  fragment : Bool
deriving DecidableEq

/-- diffComponents from background.js; all false when the previous URL is
absent. -/
def diffComponents (prev : Option URLRec) (next : URLRec) : Diffs :=
  match prev with
  | none => { origin := false, path := false, query := false, fragment := false }
  | some p =>
    { origin := p.protocol != next.protocol || p.host != next.host,
      path := p.pathname != next.pathname,
      query := p.search != next.search,
      fragment := p.hash != next.hash }

/-- The totals counter group. -/
structure Totals where
  all : Nat
  full : Nat
  spa : Nat
deriving DecidableEq

/-- The dimension-delta counter group. -/
structure Dims where
  path : Nat
  query : Nat
  fragment : Nat
deriving DecidableEq

/-- The identifier-delta counter group. -/
structure IdCounts where
  canonical : Nat
  ogUrl : Nat
  jsonLdId : Nat
deriving DecidableEq

/-- The counts record created by newCounts. -/
structure Counts where
  totals : Totals
  dims : Dims
  ids : IdCounts
deriving DecidableEq

/-- Last-seen metadata identifier strings (empty string = not observed). -/
structure IdVals where
  canonical : String
  ogUrl : String
  jsonLdId : String
deriving DecidableEq

/-- Per-tab state, as stored in the tabState map. -/
structure TabState where
  lastUrl : Option String
  origin : Option String
  hasBaseline : Bool
  suppressNextIdIncrements : Bool
  counts : Counts
  ids : IdVals
deriving DecidableEq

/-- newCounts from background.js: all nine counters zero. -/
def newCounts : Counts :=
  { totals := { all := 0, full := 0, spa := 0 },
    dims := { path := 0, query := 0, fragment := 0 },
    ids := { canonical := 0, ogUrl := 0, jsonLdId := 0 } }

/-- The cleared metadata triple. -/
def emptyIdVals : IdVals := { canonical := "", ogUrl := "", jsonLdId := "" }

/-- The zeroed per-tab state that getState installs on first reference. -/
def initTabState : TabState :=
  { lastUrl := none, origin := none, hasBaseline := false,
    suppressNextIdIncrements := false, counts := newCounts, ids := emptyIdVals }

/-- The identifier triple carried by a page-ids probe result; absent fields
default to the empty string, as in the destructuring in integratePageIds. -/
structure Incoming where
  canonical : String
  ogUrl : String
  jsonLdId : String
deriving DecidableEq

/-- The three metadata identifier keys. -/
inductive IdKey
  | canonical
  | ogUrl
  | jsonLdId
deriving DecidableEq

/-- Field selector on stored identifier values. -/
def idValsGet (v : IdVals) : IdKey → String
  | .canonical => v.canonical
  | .ogUrl => v.ogUrl
  | .jsonLdId => v.jsonLdId

/-- Field selector on identifier counters. -/
def idCountsGet (c : IdCounts) : IdKey → Nat
  | .canonical => c.canonical
  | .ogUrl => c.ogUrl
  | .jsonLdId => c.jsonLdId

/-- Field selector on an incoming probe result. -/
def incomingGet (i : Incoming) : IdKey → String
  | .canonical => i.canonical
  | .ogUrl => i.ogUrl
  | .jsonLdId => i.jsonLdId

/-- The per-field body of integratePageIds (canonical variant): given the
captured suppression flag, the baseline flag, the stored value and counter
for one key, and the incoming value, return the new stored value, the new
counter, and whether the value changed. An empty incoming value is skipped
outright. -/
def consider (suppress hasBaseline : Bool) (prev : String) (cnt : Nat)
    (val : String) : String × Nat × Bool :=
  if val = "" then (prev, cnt, false)
  else
    let changed : Bool := prev != val
    (val,
     if changed && hasBaseline && !suppress then cnt + 1 else cnt,
     changed)

/-- integratePageIds from the canonical variant of background.js: fold the
three incoming identifier fields into the state and report whether any value
changed; the captured suppression flag is consumed at the end. -/
def integratePageIds (s : TabState) (incoming : Incoming) : TabState × Bool :=
  let suppress := s.suppressNextIdIncrements
  let r1 := consider suppress s.hasBaseline s.ids.canonical
    s.counts.ids.canonical incoming.canonical
  let r2 := consider suppress s.hasBaseline s.ids.ogUrl
    s.counts.ids.ogUrl incoming.ogUrl
  let r3 := consider suppress s.hasBaseline s.ids.jsonLdId
    s.counts.ids.jsonLdId incoming.jsonLdId
  ({ s with
      ids := { canonical := r1.1, ogUrl := r2.1, jsonLdId := r3.1 },
      counts := { s.counts with
        ids := { canonical := r1.2.1, ogUrl := r2.2.1, jsonLdId := r3.2.1 } },
      suppressNextIdIncrements :=
        if suppress then false else s.suppressNextIdIncrements },
   r1.2.2 || r2.2.2 || r3.2.2)

/-- isTrackingEnabledForOrigin from the allowlist variant: a truthy origin
that the allowlist maps to true. -/
def isTrackingEnabledForOrigin (allowlist : String → Bool) :
    Option String → Bool
  | none => false
  | some o => o != "" && allowlist o

/-- The per-field body of the allowlist variant's integratePageIds: as
consider, but the counter increment additionally requires tracking to be
enabled. -/
def considerAllow (trackingEnabled suppress hasBaseline : Bool) (prev : String)
    (cnt : Nat) (val : String) : String × Nat × Bool :=
  if val = "" then (prev, cnt, false)
  else
    let changed : Bool := prev != val
    (val,
     if changed && trackingEnabled && hasBaseline && !suppress then cnt + 1
     else cnt,
     changed)

/-- integratePageIds from the allowlist variant of background.js: identical
to the canonical one except that counter increments are additionally gated on
isTrackingEnabledForOrigin for the state's stored origin. -/
def integratePageIdsAllowlist (allowlist : String → Bool) (s : TabState)
    (incoming : Incoming) : TabState × Bool :=
  let suppress := s.suppressNextIdIncrements
  let trackingEnabled := isTrackingEnabledForOrigin allowlist s.origin
  let r1 := considerAllow trackingEnabled suppress s.hasBaseline
    s.ids.canonical s.counts.ids.canonical incoming.canonical
  let r2 := considerAllow trackingEnabled suppress s.hasBaseline
    s.ids.ogUrl s.counts.ids.ogUrl incoming.ogUrl
  let r3 := considerAllow trackingEnabled suppress s.hasBaseline
    s.ids.jsonLdId s.counts.ids.jsonLdId incoming.jsonLdId
  ({ s with
      ids := { canonical := r1.1, ogUrl := r2.1, jsonLdId := r3.1 },
      counts := { s.counts with
        ids := { canonical := r1.2.1, ogUrl := r2.2.1, jsonLdId := r3.2.1 } },
      suppressNextIdIncrements :=
        if s.suppressNextIdIncrements then false
        else s.suppressNextIdIncrements },
   r1.2.2 || r2.2.2 || r3.2.2)

/-- baselineTab from background.js. The live tab URL (tabs.get, with a failed
or empty lookup collapsing to "") is a parameter. When the live URL is absent
or not core-protocol the state is fully cleared (the suppression flag is left
untouched, as in the source); otherwise counters and metadata are zeroed, the
baseline is set to the live URL, and the suppression flag is raised. The
returned Boolean records whether the immediate metadata probe was scheduled. -/
def baselineTab (liveUrl : String) (s : TabState) : TabState × Bool :=
  if liveUrl = "" || !(isCoreProtocol liveUrl) then
    ({ s with
        lastUrl := none
        origin := none
        hasBaseline := false
        counts := newCounts
        ids := emptyIdVals }, false)
  else
    match parseURL liveUrl with
    | none =>
      ({ s with
          lastUrl := none
          origin := none
          hasBaseline := false
          counts := newCounts
          ids := emptyIdVals }, false)
    | some u =>
      ({ s with
          lastUrl := some liveUrl
          origin := some (originOf u)
          hasBaseline := true
          counts := newCounts
          ids := emptyIdVals
          suppressNextIdIncrements := true }, true)

/-- Navigation source: full navigation or history-API (spa) change. -/
inductive Source
  | full
  | spa
deriving DecidableEq

/-- The within-origin counting block of handleUrlChange: bump totals.all,
bump totals.full or totals.spa according to the source, and bump each
dimension counter whose component differed. -/
def bumpCounts (c : Counts) (source : Source) (diffs : Diffs) : Counts :=
  { c with
      totals :=
        { all := c.totals.all + 1,
          full := if source = Source.spa then c.totals.full
            else c.totals.full + 1,
          spa := if source = Source.spa then c.totals.spa + 1
            else c.totals.spa },
      dims :=
        { path := if diffs.path then c.dims.path + 1 else c.dims.path,
          query := if diffs.query then c.dims.query + 1 else c.dims.query,
          fragment := if diffs.fragment then c.dims.fragment + 1
            else c.dims.fragment } }

/-- handleUrlChange from background.js. The permission oracle (hasHostPerm)
and the live tab URL consulted by baselineTab are parameters. The returned
Boolean records whether a metadata probe was scheduled (the debounced
refreshPageIds call). Branches, in source order: non-core or unparseable URL
is a no-op; tracking disabled updates only lastUrl/origin/hasBaseline; no
baseline establishes one; an identical URL is de-duplicated; an origin change
re-baselines; otherwise the within-origin change is counted and the baseline
advanced. -/
def handleUrlChange (tracking : String → Bool) (liveUrl : String)
    (s : TabState) (url : String) (source : Source) : TabState × Bool :=
  match parseURL url with
  | none => (s, false)
  | some next =>
    if !(isCoreRec next) then (s, false)
    else
      let origin := originOf next
      if !(tracking origin) then
        ({ s with
            lastUrl := some url
            origin := some origin
            hasBaseline := true }, false)
      else if !s.hasBaseline then baselineTab liveUrl s
      else if s.lastUrl = some url then (s, false)
      else
        let prev := s.lastUrl.bind parseURL
        let diffs := diffComponents prev next
        if prev.isSome && diffs.origin then baselineTab liveUrl s
        else
          ({ s with
              counts := bumpCounts s.counts source diffs
              lastUrl := some url
              origin := some origin }, true)

/-- The passive branch of the tabs.onActivated listener: record the live URL
and its (core-protocol) origin without counting. -/
def activatedPassive (url : String) (origin : Option String)
    (s : TabState) : TabState :=
  { s with
      lastUrl := if url = "" then none else some url
      origin := origin
      hasBaseline := url != "" }

/-- The tabs.onActivated listener from background.js: baseline when the live
URL has a core protocol and its origin holds tracking permission, else make a
passive location update. The returned Boolean records whether a metadata
probe was scheduled. -/
def onTabActivated (tracking : String → Bool) (liveUrl : String)
    (s : TabState) : TabState × Bool :=
  let url := liveUrl
  let origin : Option String :=
    if url != "" && isCoreProtocol url then (parseURL url).map originOf
    else none
  match origin with
  | some o =>
    if tracking o then ((baselineTab liveUrl s).1, true)
    else (activatedPassive url origin s, false)
  | none => (activatedPassive url origin s, false)

/-- The page-ids branch of the runtime.onMessage listener from the canonical
variant: drop the message unless the sender passes isFromInjectedContent and
the message's nonce equals the nonce most recently issued to the tab
(tabNonce.get; a missing or falsy entry also drops); only then integrate. -/
def handlePageIds (fromInjected : Bool) (expected : Option String)
    (s : TabState) (msgNonce : String) (incoming : Incoming) : TabState :=
  if !fromInjected then s
  else
    match expected with
    | none => s
    | some e =>
      if e = "" || msgNonce != e then s
      else (integratePageIds s incoming).1

/-- The tab-state mutation of the set-tracking disable branch from the
canonical variant: when the tab's stored origin matches the disabled origin,
reset the counters and metadata (keeping lastUrl/origin/baseline). -/
def setTrackingDisabledForTab (origin : String) (s : TabState) : TabState :=
  if s.origin = some origin then
    { s with counts := newCounts, ids := emptyIdVals }
  else s

/-- The nonce/injection bookkeeping touched by ensureInjectedWithNonce. -/
structure InjectState where
  nonce : Option String
  injected : Bool
deriving DecidableEq

/-- ensureInjectedWithNonce from the canonical variant: resolve the live tab
URL (a missing or empty URL is a no-op), require host permission for its
origin, then inject and record the tab; a per-tab nonce is generated only if
none exists yet (an existing nonce is reused). The fresh value that makeNonce
would produce is a parameter; the returned Boolean records whether the probe
was injected on this call. -/
def ensureInjectedWithNonce (hasPerm : String → Bool) (liveUrl : String)
    (fresh : String) (st : InjectState) : InjectState × Bool :=
  if liveUrl = "" then (st, false)
  else
    match parseURL liveUrl with
    | none => (st, false)
    | some u =>
      if hasPerm (originOf u) then
        ({ nonce := some (match st.nonce with | none => fresh | some n => n),
           injected := true }, true)
      else (st, false)

/-- Per-tab states reachable through the canonical background.js operations,
starting from the zeroed state created by getState: URL observations, the
baseline/reset flow (first observation, origin change, manual reset,
set-tracking enable), tab activation, metadata integration, and the
set-tracking disable branch. -/
inductive Reachable : TabState → Prop
  | init : Reachable initTabState
  | urlChange (tracking : String → Bool) (liveUrl url : String)
      (source : Source) {s : TabState} : Reachable s →
      Reachable (handleUrlChange tracking liveUrl s url source).1
  | baseline (liveUrl : String) {s : TabState} : Reachable s →
      Reachable (baselineTab liveUrl s).1
  | activated (tracking : String → Bool) (liveUrl : String) {s : TabState} :
      Reachable s → Reachable (onTabActivated tracking liveUrl s).1
  | integrate (incoming : Incoming) {s : TabState} : Reachable s →
      Reachable (integratePageIds s incoming).1
  | disable (origin : String) {s : TabState} : Reachable s →
      Reachable (setTrackingDisabledForTab origin s)

/-! Helper lemmas about the metadata integrator. -/

theorem consider_val (sup hb : Bool) (prev : String) (cnt : Nat) (val : String) :
    (consider sup hb prev cnt val).1 = if val = "" then prev else val := by
  unfold consider
  split <;> rfl

theorem consider_cnt (sup hb : Bool) (prev : String) (cnt : Nat) (val : String) :
    (consider sup hb prev cnt val).2.1 =
      if val ≠ "" ∧ prev ≠ val ∧ hb = true ∧ sup = false then cnt + 1
      else cnt := by
  unfold consider
  by_cases hv : val = ""
  · simp [hv]
  · by_cases hc : prev = val
    · simp [hv, hc]
    · cases hb <;> cases sup <;> simp [hv, hc]

theorem consider_cnt_suppressed (hb : Bool) (prev : String) (cnt : Nat)
    (val : String) : (consider true hb prev cnt val).2.1 = cnt := by
  rw [consider_cnt]
  simp

theorem considerAllow_val (tr sup hb : Bool) (prev : String) (cnt : Nat)
    (val : String) :
    (considerAllow tr sup hb prev cnt val).1 = if val = "" then prev else val := by
  unfold considerAllow
  split <;> rfl

theorem considerAllow_cnt (tr sup hb : Bool) (prev : String) (cnt : Nat)
    (val : String) :
    (considerAllow tr sup hb prev cnt val).2.1 =
      if val ≠ "" ∧ prev ≠ val ∧ tr = true ∧ hb = true ∧ sup = false then cnt + 1
      else cnt := by
  unfold considerAllow
  by_cases hv : val = ""
  · simp [hv]
  · by_cases hc : prev = val
    · simp [hv, hc]
    · cases tr <;> cases hb <;> cases sup <;> simp [hv, hc]

theorem integrate_cnt_get (s : TabState) (inc : Incoming) (k : IdKey) :
    idCountsGet (integratePageIds s inc).1.counts.ids k =
      if incomingGet inc k ≠ "" ∧ idValsGet s.ids k ≠ incomingGet inc k ∧
          s.hasBaseline = true ∧ s.suppressNextIdIncrements = false
      then idCountsGet s.counts.ids k + 1
      else idCountsGet s.counts.ids k := by
  cases k <;>
    simp only [integratePageIds, idCountsGet, idValsGet, incomingGet,
      consider_cnt]

theorem integrate_val_get (s : TabState) (inc : Incoming) (k : IdKey) :
    idValsGet (integratePageIds s inc).1.ids k =
      if incomingGet inc k = "" then idValsGet s.ids k else incomingGet inc k := by
  cases k <;>
    simp only [integratePageIds, idValsGet, incomingGet, consider_val]

theorem integrateAllow_cnt_get (al : String → Bool) (s : TabState)
    (inc : Incoming) (k : IdKey) :
    idCountsGet (integratePageIdsAllowlist al s inc).1.counts.ids k =
      if incomingGet inc k ≠ "" ∧ idValsGet s.ids k ≠ incomingGet inc k ∧
          isTrackingEnabledForOrigin al s.origin = true ∧
          s.hasBaseline = true ∧ s.suppressNextIdIncrements = false
      then idCountsGet s.counts.ids k + 1
      else idCountsGet s.counts.ids k := by
  cases k <;>
    simp only [integratePageIdsAllowlist, idCountsGet, idValsGet, incomingGet,
      considerAllow_cnt]

theorem integrateAllow_val_get (al : String → Bool) (s : TabState)
    (inc : Incoming) (k : IdKey) :
    idValsGet (integratePageIdsAllowlist al s inc).1.ids k =
      if incomingGet inc k = "" then idValsGet s.ids k else incomingGet inc k := by
  cases k <;>
    simp only [integratePageIdsAllowlist, idValsGet, incomingGet,
      considerAllow_val]

theorem integrate_totals (s : TabState) (inc : Incoming) :
    (integratePageIds s inc).1.counts.totals = s.counts.totals := rfl

theorem integrate_dims (s : TabState) (inc : Incoming) :
    (integratePageIds s inc).1.counts.dims = s.counts.dims := rfl

theorem integrate_lastUrl (s : TabState) (inc : Incoming) :
    (integratePageIds s inc).1.lastUrl = s.lastUrl := rfl

theorem integrate_origin (s : TabState) (inc : Incoming) :
    (integratePageIds s inc).1.origin = s.origin := rfl

theorem integrate_hasBaseline (s : TabState) (inc : Incoming) :
    (integratePageIds s inc).1.hasBaseline = s.hasBaseline := rfl

theorem integrate_suppress (s : TabState) (inc : Incoming) :
    (integratePageIds s inc).1.suppressNextIdIncrements = false := by
  cases h : s.suppressNextIdIncrements <;> simp [integratePageIds, h]

/-! Helper lemmas about baselineTab, handleUrlChange and the other
state-mutating operations. -/

theorem baselineTab_counts (liveUrl : String) (s : TabState) :
    (baselineTab liveUrl s).1.counts = newCounts := by
  unfold baselineTab
  split
  · rfl
  · split <;> rfl

theorem baselineTab_ids (liveUrl : String) (s : TabState) :
    (baselineTab liveUrl s).1.ids = emptyIdVals := by
  unfold baselineTab
  split
  · rfl
  · split <;> rfl

theorem handleUrlChange_counts_cases (tracking : String → Bool)
    (liveUrl : String) (s : TabState) (url : String) (source : Source) :
    (handleUrlChange tracking liveUrl s url source).1.counts = s.counts ∨
    (handleUrlChange tracking liveUrl s url source).1.counts = newCounts ∨
    ∃ diffs, (handleUrlChange tracking liveUrl s url source).1.counts =
      bumpCounts s.counts source diffs := by
  unfold handleUrlChange
  dsimp only
  repeat' split
  all_goals
    first
      | exact Or.inl rfl
      | exact Or.inr (Or.inl (baselineTab_counts liveUrl s))
      | exact Or.inr (Or.inr ⟨_, rfl⟩)

theorem bumpCounts_additive (c : Counts) (source : Source) (diffs : Diffs)
    (h : c.totals.all = c.totals.full + c.totals.spa) :
    (bumpCounts c source diffs).totals.all =
      (bumpCounts c source diffs).totals.full +
        (bumpCounts c source diffs).totals.spa := by
  cases source <;> simp [bumpCounts] <;> omega

theorem onTabActivated_counts_cases (tracking : String → Bool)
    (liveUrl : String) (s : TabState) :
    (onTabActivated tracking liveUrl s).1.counts = s.counts ∨
    (onTabActivated tracking liveUrl s).1.counts = newCounts := by
  unfold onTabActivated activatedPassive
  dsimp only
  repeat' split
  all_goals
    first
      | exact Or.inl rfl
      | exact Or.inr (baselineTab_counts liveUrl s)

theorem setTrackingDisabled_counts_cases (origin : String) (s : TabState) :
    (setTrackingDisabledForTab origin s).counts = s.counts ∨
    (setTrackingDisabledForTab origin s).counts = newCounts := by
  unfold setTrackingDisabledForTab
  split
  · exact Or.inr rfl
  · exact Or.inl rfl

/-- C1: in every per-tab state reachable through the background operations,
starting from the zeroed state created by getState, the totals counters
satisfy counts.totals.all = counts.totals.full + counts.totals.spa. -/
theorem reachable_totals_additive (s : TabState) (h : Reachable s) :
    s.counts.totals.all = s.counts.totals.full + s.counts.totals.spa := by
  induction h with
  | init => rfl
  | urlChange tracking liveUrl url source hr ih =>
    rcases handleUrlChange_counts_cases tracking liveUrl _ url source with
      hc | hc | ⟨d, hc⟩
    · rw [hc]; exact ih
    · rw [hc]; rfl
    · rw [hc]; exact bumpCounts_additive _ _ _ ih
  | baseline liveUrl hr ih => rw [baselineTab_counts]; rfl
  | activated tracking liveUrl hr ih =>
    rcases onTabActivated_counts_cases tracking liveUrl _ with hc | hc
    · rw [hc]; exact ih
    · rw [hc]; rfl
  | integrate incoming hr ih => rw [integrate_totals]; exact ih
  | disable origin hr ih =>
    rcases setTrackingDisabled_counts_cases origin _ with hc | hc
    · rw [hc]; exact ih
    · rw [hc]; rfl

/-- Witness for C1: the invariant instantiated at the initial zeroed state. -/
theorem reachable_totals_additive_witness :
    initTabState.counts.totals.all =
      initTabState.counts.totals.full + initTabState.counts.totals.spa :=
  reachable_totals_additive initTabState Reachable.init

/-- The origin/lastUrl consistency invariant that the code actually
maintains: origin is none whenever lastUrl is none, and whenever lastUrl
holds a core-protocol URL, origin is its scheme+host extraction. -/
def originConsistent (s : TabState) : Prop :=
  (s.lastUrl = none → s.origin = none) ∧
  ∀ u, s.lastUrl = some u → isCoreProtocol u = true →
    s.origin = (parseURL u).map originOf

theorem baselineTab_originConsistent (liveUrl : String) (s : TabState) :
    originConsistent (baselineTab liveUrl s).1 := by
  unfold baselineTab
  split
  · refine ⟨fun _ => rfl, fun u hu => ?_⟩
    exact nomatch hu
  · split
    · refine ⟨fun _ => rfl, fun u hu => ?_⟩
      exact nomatch hu
    · rename_i u heq
      refine ⟨fun hn => ?_, fun v hv hcore => ?_⟩
      · exact nomatch hn
      · injection hv with hv
        subst hv
        rw [heq]
        rfl

theorem activatedPassive_originConsistent (url : String) (s : TabState) :
    originConsistent (activatedPassive url
      (if url != "" && isCoreProtocol url then (parseURL url).map originOf
       else none) s) := by
  unfold activatedPassive
  by_cases hu : url = ""
  · subst hu
    refine ⟨fun _ => ?_, fun u hlu hcore => ?_⟩
    · simp
    · simp at hlu
  · refine ⟨fun hn => ?_, fun u hlu hcore => ?_⟩
    · rw [if_neg hu] at hn
      exact nomatch hn
    · rw [if_neg hu] at hlu
      injection hlu with hlu
      subst hlu
      have hne : (url != "") = true := by simp [hu]
      simp [hne, hcore]

theorem onTabActivated_originConsistent (tracking : String → Bool)
    (liveUrl : String) (s : TabState) :
    originConsistent (onTabActivated tracking liveUrl s).1 := by
  unfold onTabActivated
  dsimp only
  split
  · split
    · exact baselineTab_originConsistent liveUrl s
    · exact activatedPassive_originConsistent liveUrl s
  · exact activatedPassive_originConsistent liveUrl s

theorem handleUrlChange_originConsistent (tracking : String → Bool)
    (liveUrl : String) (s : TabState) (url : String) (source : Source)
    (h : originConsistent s) :
    originConsistent (handleUrlChange tracking liveUrl s url source).1 := by
  unfold handleUrlChange
  cases hp : parseURL url with
  | none => exact h
  | some next =>
    dsimp only
    by_cases h1 : (!isCoreRec next) = true
    · rw [if_pos h1]; exact h
    · rw [if_neg h1]
      by_cases h2 : (!tracking (originOf next)) = true
      · rw [if_pos h2]
        refine ⟨fun hn => ?_, fun u hu hcore => ?_⟩
        · exact nomatch hn
        · injection hu with hu
          subst hu
          rw [hp]
          rfl
      · rw [if_neg h2]
        by_cases h3 : (!s.hasBaseline) = true
        · rw [if_pos h3]; exact baselineTab_originConsistent liveUrl s
        · rw [if_neg h3]
          by_cases h4 : s.lastUrl = some url
          · rw [if_pos h4]; exact h
          · rw [if_neg h4]
            split
            · exact baselineTab_originConsistent liveUrl s
            · refine ⟨fun hn => ?_, fun u hu hcore => ?_⟩
              · exact nomatch hn
              · injection hu with hu
                subst hu
                rw [hp]
                rfl

theorem integrate_originConsistent (s : TabState) (incoming : Incoming)
    (h : originConsistent s) :
    originConsistent (integratePageIds s incoming).1 := by
  refine ⟨fun hn => ?_, fun u hu hcore => ?_⟩
  · rw [integrate_origin]
    exact h.1 (by rw [← integrate_lastUrl s incoming]; exact hn)
  · rw [integrate_origin]
    exact h.2 u (by rw [← integrate_lastUrl s incoming]; exact hu) hcore

theorem setTrackingDisabled_originConsistent (origin : String) (s : TabState)
    (h : originConsistent s) :
    originConsistent (setTrackingDisabledForTab origin s) := by
  unfold setTrackingDisabledForTab
  split
  · exact ⟨fun hn => h.1 hn, fun u hu hcore => h.2 u hu hcore⟩
  · exact h

/-- C8 (amended): in every reachable per-tab state, origin is none whenever
lastUrl is none, and whenever lastUrl holds a core-protocol URL, origin
equals its scheme+host extraction. (The unamended claim — that origin and
lastUrl are never allowed to diverge, being null only together — fails at
the tab-activated passive update, which can store a non-core live URL in
lastUrl while setting origin to null.) -/
theorem reachable_origin_consistent (s : TabState) (h : Reachable s) :
    originConsistent s := by
  induction h with
  | init =>
    refine ⟨fun _ => rfl, fun u hu hc => ?_⟩
    exact nomatch hu
  | urlChange tracking liveUrl url source hr ih =>
    exact handleUrlChange_originConsistent tracking liveUrl _ url source ih
  | baseline liveUrl hr ih => exact baselineTab_originConsistent liveUrl _
  | activated tracking liveUrl hr ih =>
    exact onTabActivated_originConsistent tracking liveUrl _
  | integrate incoming hr ih => exact integrate_originConsistent _ incoming ih
  | disable origin hr ih =>
    exact setTrackingDisabled_originConsistent origin _ ih

/-- Witness for C8: the amended invariant instantiated at the initial
zeroed state. -/
theorem reachable_origin_consistent_witness :
    originConsistent initTabState :=
  reachable_origin_consistent initTabState Reachable.init

/-- Counterexample for C8 as stated: activating a tab whose live URL is
about:blank (a non-core scheme) with tracking disabled everywhere reaches a
state whose lastUrl is some "about:blank" while origin is none — yet
scheme+host extraction of that lastUrl is some "about://", so origin and
lastUrl have diverged and are not null together. -/
theorem activated_passive_origin_divergence :
    Reachable (onTabActivated (fun _ => false) "about:blank" initTabState).1 ∧
    (onTabActivated (fun _ => false) "about:blank" initTabState).1.lastUrl =
      some "about:blank" ∧
    (onTabActivated (fun _ => false) "about:blank" initTabState).1.origin =
      none ∧
    (parseURL "about:blank").map originOf = some "about://" := by
  refine ⟨Reachable.activated (fun _ => false) "about:blank" Reachable.init,
    ?_, ?_, ?_⟩ <;> decide

/-- C2 counterexample: with the permission oracle constantly false (tracking
enabled for no origin at all), a URL observation establishes the passive
baseline, and the canonical integratePageIds still increments the canonical
identifier counter from 0 to 1 on a differing non-empty value — the
canonical variant's integrator does not gate increments on tracking. -/
theorem integrate_increments_without_tracking :
    (integratePageIds
        (handleUrlChange (fun _ => false) "" initTabState
          "https://a.com/x" Source.full).1
        { canonical := "https://a.com/c", ogUrl := "", jsonLdId := "" }
      ).1.counts.ids.canonical = 1 ∧
    (handleUrlChange (fun _ => false) "" initTabState
        "https://a.com/x" Source.full).1.counts.ids.canonical = 0 := by
  constructor <;> decide

/-- C2 (amended): the canonical integrator increments an identifier counter
exactly when the incoming value is non-empty, differs from the stored value,
a baseline exists and the one-shot suppression flag is unset — with no
tracking condition (tracking is enforced by the page-ids message handler,
not the integrator); the allowlist variant's integrator additionally
requires tracking to be enabled for the stored origin. In both variants the
stored value is updated on any non-empty incoming value. -/
theorem integratePageIds_gating :
    (∀ s inc k,
        idCountsGet (integratePageIds s inc).1.counts.ids k =
          (if incomingGet inc k ≠ "" ∧ idValsGet s.ids k ≠ incomingGet inc k ∧
              s.hasBaseline = true ∧ s.suppressNextIdIncrements = false
           then idCountsGet s.counts.ids k + 1
           else idCountsGet s.counts.ids k) ∧
        idValsGet (integratePageIds s inc).1.ids k =
          (if incomingGet inc k = "" then idValsGet s.ids k
           else incomingGet inc k)) ∧
    (∀ al s inc k,
        idCountsGet (integratePageIdsAllowlist al s inc).1.counts.ids k =
          (if incomingGet inc k ≠ "" ∧ idValsGet s.ids k ≠ incomingGet inc k ∧
              isTrackingEnabledForOrigin al s.origin = true ∧
              s.hasBaseline = true ∧ s.suppressNextIdIncrements = false
           then idCountsGet s.counts.ids k + 1
           else idCountsGet s.counts.ids k) ∧
        idValsGet (integratePageIdsAllowlist al s inc).1.ids k =
          (if incomingGet inc k = "" then idValsGet s.ids k
           else incomingGet inc k)) := by
  constructor
  · intro s inc k
    exact ⟨integrate_cnt_get s inc k, integrate_val_get s inc k⟩
  · intro al s inc k
    exact ⟨integrateAllow_cnt_get al s inc k, integrateAllow_val_get al s inc k⟩

/-- C3 counterexample: a call to ensureInjectedWithNonce that does inject
(the live URL resolves and host permission holds) leaves an already-present
per-tab nonce unchanged — the nonce is reused, not regenerated, on
re-injection. -/
theorem ensureInjected_reuses_nonce :
    (ensureInjectedWithNonce (fun _ => true) "https://a.com/x" "11112222"
        { nonce := some "aaaa0000", injected := true }).2 = true ∧
    (ensureInjectedWithNonce (fun _ => true) "https://a.com/x" "11112222"
        { nonce := some "aaaa0000", injected := true }).1.nonce =
      some "aaaa0000" := by
  constructor <;> decide

/-- C3 (amended): ensureInjectedWithNonce generates a nonce only when the
tab has none yet (first injection since the tab was created or removed); an
injecting call with an existing nonce reuses it unchanged, and a
non-injecting call leaves the state untouched. -/
theorem ensureInjected_nonce_policy (hasPerm : String → Bool)
    (liveUrl fresh : String) (st : InjectState) :
    (∀ n, st.nonce = some n →
        (ensureInjectedWithNonce hasPerm liveUrl fresh st).1.nonce = some n) ∧
    (st.nonce = none →
        (ensureInjectedWithNonce hasPerm liveUrl fresh st).2 = true →
        (ensureInjectedWithNonce hasPerm liveUrl fresh st).1.nonce =
          some fresh) ∧
    ((ensureInjectedWithNonce hasPerm liveUrl fresh st).2 = false →
        (ensureInjectedWithNonce hasPerm liveUrl fresh st).1 = st) := by
  unfold ensureInjectedWithNonce
  split
  · refine ⟨fun n hn => hn, fun h1 h2 => ?_, fun _ => rfl⟩
    exact nomatch h2
  · split
    · refine ⟨fun n hn => hn, fun h1 h2 => ?_, fun _ => rfl⟩
      exact nomatch h2
    · split
      · refine ⟨fun n hn => ?_, fun h1 h2 => ?_, fun hf => ?_⟩
        · rw [hn]
        · rw [h1]
        · exact nomatch hf
      · refine ⟨fun n hn => hn, fun h1 h2 => ?_, fun _ => rfl⟩
        exact nomatch h2

/-- Witness for C3 (amended): at concrete inputs, an injecting call reuses
the existing nonce, and a first injection installs the fresh nonce. -/
theorem ensureInjected_nonce_policy_witness :
    (ensureInjectedWithNonce (fun _ => true) "https://b.com/y" "33334444"
        { nonce := some "bbbb0000", injected := true }).1.nonce =
      some "bbbb0000" ∧
    (ensureInjectedWithNonce (fun _ => true) "https://b.com/y" "33334444"
        { nonce := none, injected := false }).1.nonce = some "33334444" :=
  ⟨(ensureInjected_nonce_policy (fun _ => true) "https://b.com/y" "33334444"
      { nonce := some "bbbb0000", injected := true }).1 "bbbb0000" rfl,
   (ensureInjected_nonce_policy (fun _ => true) "https://b.com/y" "33334444"
      { nonce := none, injected := false }).2.1 rfl (by decide)⟩

/-- C4: when tracking is disabled for the observed URL's origin (and the URL
is core-protocol), handleUrlChange updates only lastUrl, origin and
hasBaseline (set true); counters, stored identifiers and the suppression
flag are untouched and no metadata probe is scheduled (the effect flag is
false). -/
theorem handleUrlChange_tracking_disabled (tracking : String → Bool)
    (liveUrl : String) (s : TabState) (url : String) (source : Source)
    (next : URLRec) (hp : parseURL url = some next)
    (hcore : isCoreRec next = true)
    (hoff : tracking (originOf next) = false) :
    handleUrlChange tracking liveUrl s url source =
      ({ s with
          lastUrl := some url
          origin := some (originOf next)
          hasBaseline := true }, false) := by
  unfold handleUrlChange
  rw [hp]
  simp [hcore, hoff]

/-- Witness for C4: a tracking-disabled observation of https://a.com/x from
the initial state updates only the location fields. -/
theorem handleUrlChange_tracking_disabled_witness :
    handleUrlChange (fun _ => false) "" initTabState "https://a.com/x"
        Source.full =
      ({ initTabState with
          lastUrl := some "https://a.com/x"
          origin := some "https://a.com"
          hasBaseline := true }, false) :=
  (handleUrlChange_tracking_disabled (fun _ => false) "" initTabState
      "https://a.com/x" Source.full
      { protocol := "https:", host := "a.com", pathname := "/x",
        search := "", hash := "" }
      (by decide) (by decide) rfl).trans (by decide)

/-- C5: with tracking enabled, an established baseline and an observed URL
whose scheme+host differ from the previous URL's, handleUrlChange
re-baselines to the live URL: all counters zeroed, metadata cleared,
hasBaseline true, lastUrl/origin set to the (core-protocol) live URL, the
suppression flag raised, and no counter incremented by the transition. -/
theorem handleUrlChange_origin_change_rebaselines (tracking : String → Bool)
    (liveUrl : String) (s : TabState) (url : String) (source : Source)
    (next prevRec liveRec : URLRec) (prevU : String)
    (hp : parseURL url = some next) (hcore : isCoreRec next = true)
    (hon : tracking (originOf next) = true)
    (hbase : s.hasBaseline = true)
    (hlast : s.lastUrl = some prevU)
    (hprev : parseURL prevU = some prevRec)
    (hne : prevU ≠ url)
    (horig : (prevRec.protocol != next.protocol ||
        prevRec.host != next.host) = true)
    (hlive : liveUrl ≠ "")
    (hliveP : parseURL liveUrl = some liveRec)
    (hliveCore : isCoreRec liveRec = true) :
    handleUrlChange tracking liveUrl s url source =
      ({ s with
          lastUrl := some liveUrl
          origin := some (originOf liveRec)
          hasBaseline := true
          counts := newCounts
          ids := emptyIdVals
          suppressNextIdIncrements := true }, true) := by
  unfold handleUrlChange baselineTab isCoreProtocol
  rw [hp]
  simp [hcore, hon, hbase, hlast, hne, hprev, horig, hlive, hliveP, hliveCore,
    diffComponents]

/-- Witness for C5: from a baseline at https://a.com/x with nonzero
counters and stored metadata, observing https://b.com/y (live URL the same)
zeroes everything and re-baselines at https://b.com/y. -/
theorem handleUrlChange_origin_change_rebaselines_witness :
    handleUrlChange (fun _ => true) "https://b.com/y"
        { lastUrl := some "https://a.com/x", origin := some "https://a.com",
          hasBaseline := true, suppressNextIdIncrements := false,
          counts := { totals := { all := 2, full := 1, spa := 1 },
                      dims := { path := 1, query := 0, fragment := 1 },
                      ids := { canonical := 1, ogUrl := 0, jsonLdId := 0 } },
          ids := { canonical := "https://a.com/c", ogUrl := "",
                   jsonLdId := "" } }
        "https://b.com/y" Source.full =
      ({ lastUrl := some "https://b.com/y", origin := some "https://b.com",
          hasBaseline := true, suppressNextIdIncrements := true,
          counts := newCounts, ids := emptyIdVals }, true) :=
  (handleUrlChange_origin_change_rebaselines (fun _ => true)
      "https://b.com/y" _ "https://b.com/y" Source.full
      { protocol := "https:", host := "b.com", pathname := "/y",
        search := "", hash := "" }
      { protocol := "https:", host := "a.com", pathname := "/x",
        search := "", hash := "" }
      { protocol := "https:", host := "b.com", pathname := "/y",
        search := "", hash := "" }
      "https://a.com/x"
      (by decide) (by decide) rfl rfl rfl (by decide) (by decide) (by decide)
      (by decide) (by decide) (by decide)).trans (by decide)

theorem integrate_counts_suppressed (s : TabState) (inc : Incoming)
    (hsup : s.suppressNextIdIncrements = true) :
    (integratePageIds s inc).1.counts = s.counts := by
  unfold integratePageIds
  dsimp only
  rw [hsup]
  rw [consider_cnt_suppressed, consider_cnt_suppressed,
    consider_cnt_suppressed]

/-- C6: the suppression flag is one-shot — an integration that starts with
the flag set increments no counter at all (the whole counts record is
unchanged) and clears the flag, and the following integration increments an
identifier counter on any genuine non-empty change. -/
theorem suppression_one_shot (s : TabState) (inc : Incoming)
    (hsup : s.suppressNextIdIncrements = true) :
    (integratePageIds s inc).1.counts = s.counts ∧
    (integratePageIds s inc).1.suppressNextIdIncrements = false ∧
    ∀ inc2 k, (integratePageIds s inc).1.hasBaseline = true →
      incomingGet inc2 k ≠ "" →
      idValsGet (integratePageIds s inc).1.ids k ≠ incomingGet inc2 k →
      idCountsGet
          (integratePageIds (integratePageIds s inc).1 inc2).1.counts.ids k =
        idCountsGet (integratePageIds s inc).1.counts.ids k + 1 := by
  refine ⟨integrate_counts_suppressed s inc hsup, integrate_suppress s inc,
    fun inc2 k h1 h2 h3 => ?_⟩
  rw [integrate_cnt_get]
  rw [if_pos ⟨h2, h3, h1, integrate_suppress s inc⟩]

/-- Witness for C6: immediately after a baseline (suppression set), an
integration with three fresh identifiers changes no counter and clears the
flag; the next integration with a differing canonical value increments that
counter. -/
theorem suppression_one_shot_witness :
    (integratePageIds
        { lastUrl := some "https://a.com/x", origin := some "https://a.com",
          hasBaseline := true, suppressNextIdIncrements := true,
          counts := newCounts, ids := emptyIdVals }
        { canonical := "https://a.com/c1", ogUrl := "https://a.com/o1",
          jsonLdId := "https://a.com/j1" }).1.counts =
      ({ lastUrl := some "https://a.com/x", origin := some "https://a.com",
          hasBaseline := true, suppressNextIdIncrements := true,
          counts := newCounts, ids := emptyIdVals } : TabState).counts ∧
    (integratePageIds
        { lastUrl := some "https://a.com/x", origin := some "https://a.com",
          hasBaseline := true, suppressNextIdIncrements := true,
          counts := newCounts, ids := emptyIdVals }
        { canonical := "https://a.com/c1", ogUrl := "https://a.com/o1",
          jsonLdId := "https://a.com/j1" }).1.suppressNextIdIncrements =
      false ∧
    idCountsGet
        (integratePageIds
          (integratePageIds
            { lastUrl := some "https://a.com/x", origin := some "https://a.com",
              hasBaseline := true, suppressNextIdIncrements := true,
              counts := newCounts, ids := emptyIdVals }
            { canonical := "https://a.com/c1", ogUrl := "https://a.com/o1",
              jsonLdId := "https://a.com/j1" }).1
          { canonical := "https://a.com/c2", ogUrl := "",
            jsonLdId := "" }).1.counts.ids IdKey.canonical =
      idCountsGet
        (integratePageIds
          { lastUrl := some "https://a.com/x", origin := some "https://a.com",
            hasBaseline := true, suppressNextIdIncrements := true,
            counts := newCounts, ids := emptyIdVals }
          { canonical := "https://a.com/c1", ogUrl := "https://a.com/o1",
            jsonLdId := "https://a.com/j1" }).1.counts.ids IdKey.canonical
        + 1 := by
  refine ⟨(suppression_one_shot _ _ rfl).1, (suppression_one_shot _ _ rfl).2.1,
    (suppression_one_shot _ _ rfl).2.2
      { canonical := "https://a.com/c2", ogUrl := "", jsonLdId := "" }
      IdKey.canonical (by decide) (by decide) (by decide)⟩

/-- C7: a page-ids message whose nonce differs from the nonce last issued to
the tab — or arrives when no nonce was ever issued — is dropped by the
message handler: the tab state is returned unchanged, with no integration. -/
theorem handlePageIds_nonce_mismatch (fromInjected : Bool)
    (expected : Option String) (s : TabState) (msgNonce : String)
    (incoming : Incoming)
    (h : expected = none ∨ ∃ e, expected = some e ∧ msgNonce ≠ e) :
    handlePageIds fromInjected expected s msgNonce incoming = s := by
  unfold handlePageIds
  rcases h with h | ⟨e, he, hne⟩
  · subst h
    cases fromInjected <;> simp
  · subst he
    cases fromInjected <;> simp [hne]

/-- Witness for C7: a message with a stale nonce against an issued one, and
a message when no nonce was issued, both leave the state unchanged. -/
theorem handlePageIds_nonce_mismatch_witness :
    handlePageIds true (some "aaaa0000") initTabState "bbbb0000"
        { canonical := "https://a.com/c", ogUrl := "", jsonLdId := "" } =
      initTabState ∧
    handlePageIds true none initTabState "aaaa0000"
        { canonical := "https://a.com/c", ogUrl := "", jsonLdId := "" } =
      initTabState :=
  ⟨handlePageIds_nonce_mismatch true (some "aaaa0000") initTabState
      "bbbb0000" _ (Or.inr ⟨"aaaa0000", rfl, by decide⟩),
   handlePageIds_nonce_mismatch true none initTabState "aaaa0000" _
      (Or.inl rfl)⟩

/-- The nine counters of a counts record, in declaration order. -/
def countsList (c : Counts) : List Nat :=
  [c.totals.all, c.totals.full, c.totals.spa,
   c.dims.path, c.dims.query, c.dims.fragment,
   c.ids.canonical, c.ids.ogUrl, c.ids.jsonLdId]

theorem ite_self_or_succ (c : Prop) [Decidable c] (a : Nat) :
    (if c then a + 1 else a) = a ∨ (if c then a + 1 else a) = a + 1 := by
  split
  · exact Or.inr rfl
  · exact Or.inl rfl

theorem ite_succ_or_self (c : Prop) [Decidable c] (a : Nat) :
    (if c then a else a + 1) = a ∨ (if c then a else a + 1) = a + 1 := by
  split
  · exact Or.inl rfl
  · exact Or.inr rfl

theorem integrate_counts_monotone (s : TabState) (inc : Incoming) :
    List.Forall₂ (fun a b => b = a ∨ b = a + 1)
      (countsList s.counts) (countsList (integratePageIds s inc).1.counts) := by
  have hc := integrate_cnt_get s inc IdKey.canonical
  have ho := integrate_cnt_get s inc IdKey.ogUrl
  have hj := integrate_cnt_get s inc IdKey.jsonLdId
  simp only [idCountsGet, idValsGet, incomingGet] at hc ho hj
  simp only [countsList, integrate_totals, integrate_dims, hc, ho, hj]
  refine List.Forall₂.cons (Or.inl rfl) ?_
  refine List.Forall₂.cons (Or.inl rfl) ?_
  refine List.Forall₂.cons (Or.inl rfl) ?_
  refine List.Forall₂.cons (Or.inl rfl) ?_
  refine List.Forall₂.cons (Or.inl rfl) ?_
  refine List.Forall₂.cons (Or.inl rfl) ?_
  refine List.Forall₂.cons (ite_self_or_succ _ _) ?_
  refine List.Forall₂.cons (ite_self_or_succ _ _) ?_
  exact List.Forall₂.cons (ite_self_or_succ _ _) List.Forall₂.nil

theorem bumpCounts_monotone (c : Counts) (source : Source) (diffs : Diffs) :
    List.Forall₂ (fun a b => b = a ∨ b = a + 1)
      (countsList c) (countsList (bumpCounts c source diffs)) := by
  simp only [countsList, bumpCounts]
  refine List.Forall₂.cons (Or.inr rfl) ?_
  refine List.Forall₂.cons (ite_succ_or_self _ _) ?_
  refine List.Forall₂.cons (ite_self_or_succ _ _) ?_
  refine List.Forall₂.cons (ite_self_or_succ _ _) ?_
  refine List.Forall₂.cons (ite_self_or_succ _ _) ?_
  refine List.Forall₂.cons (ite_self_or_succ _ _) ?_
  refine List.Forall₂.cons (Or.inl rfl) ?_
  refine List.Forall₂.cons (Or.inl rfl) ?_
  exact List.Forall₂.cons (Or.inl rfl) List.Forall₂.nil

/-- C9: every counter is monotone — integratePageIds changes each of the
nine counters by zero or one, and handleUrlChange either does the same (its
within-origin counting step) or resets the whole counts record to zero via
its internal baseline; the only operations that lower a counter are the
resets, namely baselineTab (always zeroing) and the set-tracking disable
branch (zeroing exactly when the tab's origin matches, else a no-op). -/
theorem counters_monotone_or_reset :
    (∀ s inc, List.Forall₂ (fun a b => b = a ∨ b = a + 1)
        (countsList s.counts)
        (countsList (integratePageIds s inc).1.counts)) ∧
    (∀ tracking liveUrl s url source,
        List.Forall₂ (fun a b => b = a ∨ b = a + 1)
          (countsList s.counts)
          (countsList (handleUrlChange tracking liveUrl s url source).1.counts) ∨
        (handleUrlChange tracking liveUrl s url source).1.counts = newCounts) ∧
    (∀ liveUrl s, (baselineTab liveUrl s).1.counts = newCounts) ∧
    (∀ origin s, setTrackingDisabledForTab origin s = s ∨
        (setTrackingDisabledForTab origin s).counts = newCounts) := by
  refine ⟨integrate_counts_monotone, fun tracking liveUrl s url source => ?_,
    baselineTab_counts, fun origin s => ?_⟩
  · rcases handleUrlChange_counts_cases tracking liveUrl s url source with
      hc | hc | ⟨d, hc⟩
    · rw [hc]
      exact Or.inl (List.forall₂_same.2 fun a _ => Or.inl rfl)
    · exact Or.inr hc
    · rw [hc]
      exact Or.inl (bumpCounts_monotone s.counts source d)
  · unfold setTrackingDisabledForTab
    split
    · exact Or.inr rfl
    · exact Or.inl rfl

/-- C10: an empty identifier field in a probe result is ignored entirely by
the canonical integrator — that field's stored value and counter are
unchanged, so a stored non-empty identifier is never cleared or overwritten
by a probe result lacking it. -/
theorem integrate_ignores_empty_field (s : TabState) (inc : Incoming)
    (k : IdKey) (h : incomingGet inc k = "") :
    idValsGet (integratePageIds s inc).1.ids k = idValsGet s.ids k ∧
    idCountsGet (integratePageIds s inc).1.counts.ids k =
      idCountsGet s.counts.ids k := by
  constructor
  · rw [integrate_val_get, if_pos h]
  · rw [integrate_cnt_get, if_neg]
    rintro ⟨h1, -⟩
    exact h1 h

/-- Witness for C10: a probe result with all three fields empty leaves a
stored canonical identifier and its counter exactly as they were. -/
theorem integrate_ignores_empty_field_witness :
    idValsGet
        (integratePageIds
          { lastUrl := some "https://a.com/x", origin := some "https://a.com",
            hasBaseline := true, suppressNextIdIncrements := false,
            counts := { totals := { all := 1, full := 1, spa := 0 },
                        dims := { path := 1, query := 0, fragment := 0 },
                        ids := { canonical := 1, ogUrl := 0, jsonLdId := 0 } },
            ids := { canonical := "https://a.com/c", ogUrl := "",
                     jsonLdId := "" } }
          { canonical := "", ogUrl := "", jsonLdId := "" }).1.ids
        IdKey.canonical = "https://a.com/c" ∧
    idCountsGet
        (integratePageIds
          { lastUrl := some "https://a.com/x", origin := some "https://a.com",
            hasBaseline := true, suppressNextIdIncrements := false,
            counts := { totals := { all := 1, full := 1, spa := 0 },
                        dims := { path := 1, query := 0, fragment := 0 },
                        ids := { canonical := 1, ogUrl := 0, jsonLdId := 0 } },
            ids := { canonical := "https://a.com/c", ogUrl := "",
                     jsonLdId := "" } }
          { canonical := "", ogUrl := "", jsonLdId := "" }).1.counts.ids
        IdKey.canonical = 1 := by
  have h := integrate_ignores_empty_field
    { lastUrl := some "https://a.com/x", origin := some "https://a.com",
      hasBaseline := true, suppressNextIdIncrements := false,
      counts := { totals := { all := 1, full := 1, spa := 0 },
                  dims := { path := 1, query := 0, fragment := 0 },
                  ids := { canonical := 1, ogUrl := 0, jsonLdId := 0 } },
      ids := { canonical := "https://a.com/c", ogUrl := "",
               jsonLdId := "" } }
    { canonical := "", ogUrl := "", jsonLdId := "" } IdKey.canonical rfl
  exact ⟨h.1.trans (by decide), h.2.trans (by decide)⟩
